import Mathlib

/-!
Verification of the monitored NCCL communicator handle implemented in
src/NCCL/01/test.cc: the check macros, the `NCCLComm` wrapper class with its
`GetNCCLComm` accessor and `CheckNCCLError` health check, the hostname
hashing used to derive the local GPU rank, the SIGTERM handler, and the two
infinite loops (foreground collective loop and background watchdog loop).

External library calls (MPI, CUDA, NCCL) are modelled by their observable
results: each call site receives the result code the library would return,
and the error-string functions of the libraries are modelled as stand-in
injective code-to-string maps.
-/

namespace NCCLTest

/-- `ncclSuccess` is 0 in the NCCL result enumeration; result codes are
modelled as naturals. -/
def ncclSuccess : Nat := 0

/-- `MPI_SUCCESS` is 0; MPI result codes are modelled as integers since the
macro prints them with a signed format. -/
def MPI_SUCCESS : Int := 0

/-- `cudaSuccess` is 0 in the CUDA error enumeration. -/
def cudaSuccess : Nat := 0

/-- Stand-in for the external library function `ncclGetErrorString`,
mapping a result code to a printable error string. -/
def ncclGetErrorString (r : Nat) : String := "nccl error code " ++ toString r

/-- Stand-in for the external library function `cudaGetErrorString`,
mapping an error code to a printable error string. -/
def cudaGetErrorString (e : Nat) : String := "cuda error code " ++ toString e

/-- The diagnostic data printed by a check macro on failure: source file,
line number, and the underlying error code or error string
(test.cc:13-41). -/
structure Diagnostic where
  file : String
  line : Nat
  err : String
deriving Repr, DecidableEq

/-- Outcome of one check macro invocation: either the wrapped call passed,
or the macro printed a diagnostic and exited the process with the given
status. -/
inductive CheckOutcome where
  | passed
  | failed (diag : Diagnostic) (status : Nat)
deriving Repr, DecidableEq

/-- The MPICHECK macro (test.cc:13-21): on a non-`MPI_SUCCESS` result it
prints "Failed: MPI error file:line code" and exits with EXIT_FAILURE = 1. -/
def MPICHECK (file : String) (line : Nat) (e : Int) : CheckOutcome :=
  if e ≠ MPI_SUCCESS then .failed ⟨file, line, toString e⟩ 1 else .passed

/-- The CUDACHECK macro (test.cc:23-31): on a non-`cudaSuccess` result it
prints "Failed: Cuda error file:line errstring" and exits with
EXIT_FAILURE = 1. -/
def CUDACHECK (file : String) (line : Nat) (e : Nat) : CheckOutcome :=
  if e ≠ cudaSuccess then .failed ⟨file, line, cudaGetErrorString e⟩ 1 else .passed

/-- The NCCLCHECK macro (test.cc:33-41): on a non-`ncclSuccess` result it
prints "Failed, NCCL error file:line errstring" and exits with
EXIT_FAILURE = 1. -/
def NCCLCHECK (file : String) (line : Nat) (r : Nat) : CheckOutcome :=
  if r ≠ ncclSuccess then .failed ⟨file, line, ncclGetErrorString r⟩ 1 else .passed

/-- The `NCCLComm` wrapper class (test.cc:44-81).  Its only data member
besides the mutex is the communicator reference `nccl_comm_` stored at
construction; the mutex serialises the methods, so each method is modelled
as an atomic function of this state. -/
structure NCCLComm where
  nccl_comm : Nat
deriving Repr, DecidableEq

/-- `NCCLComm::GetNCCLComm` (test.cc:55-59): returns the stored
communicator reference. -/
def NCCLComm.GetNCCLComm (c : NCCLComm) : Nat := c.nccl_comm

/-- The transport-visible behaviour of one `CheckNCCLError` call:
the result code returned by the `ncclCommGetAsyncError` call itself, the
async error code it writes into `result`, and the result code returned by
`ncclCommAbort` (consulted only if abort is invoked). -/
structure TransportResponse where
  queryStatus : Nat
  asyncError : Nat
  abortStatus : Nat
deriving Repr, DecidableEq

/-- Observable outcome of one `CheckNCCLError` call: the handle state after
the call, how many times `ncclCommAbort` was invoked during the call, the
lines printed, and `some status` if the process exited inside the call. -/
structure CheckResult where
  comm : NCCLComm
  abortCalls : Nat
  logs : List String
  exited : Option Nat
deriving Repr, DecidableEq

/-- `NCCLComm::CheckNCCLError` (test.cc:61-76), with the two NCCLCHECK
macros expanded in place (test.cc:66 and test.cc:71).  It queries the async
error; if the query call itself fails the NCCLCHECK exits the process with
status 1; if the query succeeds and reports a non-Ok async error code, the
error is logged and `ncclCommAbort` is invoked unconditionally — the class
records no fault state — and a failing abort result again exits with
status 1.  On an Ok code nothing happens. -/
def NCCLComm.CheckNCCLError (c : NCCLComm) (t : TransportResponse) : CheckResult :=
  if t.queryStatus ≠ ncclSuccess then
    { comm := c, abortCalls := 0,
      logs := ["Failed, NCCL error test.cc:66 " ++ ncclGetErrorString t.queryStatus],
      exited := some 1 }
  else if t.asyncError ≠ ncclSuccess then
    if t.abortStatus ≠ ncclSuccess then
      { comm := c, abortCalls := 1,
        logs := ["ncclCommGetAsyncError result: " ++ ncclGetErrorString t.asyncError,
                 "[DEBUG] ncclComAbort starts!",
                 "Failed, NCCL error test.cc:71 " ++ ncclGetErrorString t.abortStatus],
        exited := some 1 }
    else
      { comm := c, abortCalls := 1,
        logs := ["ncclCommGetAsyncError result: " ++ ncclGetErrorString t.asyncError,
                 "[DEBUG] ncclComAbort starts!",
                 "[DEBUG] ncclComAbort finishes!"],
        exited := none }
  else
    { comm := c, abortCalls := 0, logs := [], exited := none }

/-- Running a finite sequence of `CheckNCCLError` calls against a sequence
of transport responses (the body of the watchdog loop, test.cc:106-109,
iterated).  Returns the final handle state, the total number of
`ncclCommAbort` invocations, and `some status` if the process exited during
one of the calls (later calls then never happen). -/
def runWatchdog (c : NCCLComm) : List TransportResponse → NCCLComm × Nat × Option Nat
  | [] => (c, 0, none)
  | t :: ts =>
    let r := c.CheckNCCLError t
    match r.exited with
    | some st => (r.comm, r.abortCalls, some st)
    | none =>
      let rest := runWatchdog r.comm ts
      (rest.1, r.abortCalls + rest.2.1, rest.2.2)

/-- The spec's FaultState abstraction for the handle. -/
inductive FaultState where
  | Healthy
  | Aborted
deriving Repr, DecidableEq

/-- Derived fault state of a run: `Healthy` while no abort has been issued
against the communicator, `Aborted` once at least one has. -/
def faultStateOf (abortCalls : Nat) : FaultState :=
  if abortCalls = 0 then .Healthy else .Aborted

/-- One iteration of the foreground collective loop (test.cc:171-175):
`NCCLCHECK(ncclAllReduce(...))` at test.cc:172, given the result code the
`ncclAllReduce` call returns.  Yields `some status` if the check macro
exits the process, `none` if the loop continues. -/
def fgIteration (allReduceStatus : Nat) : Option Nat :=
  match NCCLCHECK "test.cc" 172 allReduceStatus with
  | .failed _ st => some st
  | .passed => none

/-- Where control can be after some number of loop iterations: still inside
the loop, exited via a check macro, or past the loop at the code that frees
the buffers, joins the watchdog thread and returns 0 (test.cc:177-184). -/
inductive LoopOutcome where
  | running
  | exited (status : Nat)
  | reachedPostlude
deriving Repr, DecidableEq

/-- The foreground `while (true)` collective loop of `main`
(test.cc:171-175) after `n` iterations, where `statuses i` is the result
code of the `ncclAllReduce` call of iteration `i`.  The loop has no break:
its only exit is the check macro. -/
def mainCollectiveLoop (statuses : Nat → Nat) : Nat → LoopOutcome
  | 0 => .running
  | n + 1 =>
    match mainCollectiveLoop statuses n with
    | .running =>
      match fgIteration (statuses n) with
      | some st => .exited st
      | none => .running
    | o => o

/-- The background watchdog `while (true)` loop in `checkNCCLError`
(test.cc:104-110) after `n` iterations, where `ts i` is the transport
response observed by iteration `i`.  The loop has no break: its only exit
is a check macro inside `CheckNCCLError`.  `CheckNCCLError` leaves the
handle state unchanged in every branch, so the handle passed to each
iteration is the same. -/
def checkNCCLErrorLoop (c : NCCLComm) (ts : Nat → TransportResponse) : Nat → LoopOutcome
  | 0 => .running
  | n + 1 =>
    match checkNCCLErrorLoop c ts n with
    | .running =>
      match (c.CheckNCCLError (ts n)).exited with
      | some st => .exited st
      | none => .running
    | o => o

/-- `getHostHash` (test.cc:83-91): DJB2a hash over the characters of a
C string (the list holds the byte values before the terminator), with
uint64 wrap-around arithmetic. -/
def getHostHash (s : List Nat) : Nat :=
  s.foldl (fun result c => (((result <<< 5) + result) % 2 ^ 64) ^^^ (c % 2 ^ 64)) 5381

/-- Reading a C string out of a buffer: the bytes before the first 0. -/
def cString (buf : List Nat) : List Nat := buf.takeWhile (fun c => c ≠ 0)

/-- `getHostName` (test.cc:93-102) after `gethostname` has filled the
buffer: scan the first `maxlen` buffer positions; at the first `.` (byte
46) write a 0 terminator and return; if none is found change nothing.
Modelled structurally: the fuel `maxlen` counts the positions scanned. -/
def getHostName : List Nat → Nat → List Nat
  | buf, 0 => buf
  | [], _ + 1 => []
  | c :: rest, m + 1 => if c = 46 then 0 :: rest else c :: getHostName rest m

/-- The hash a rank contributes to `hostHashs` (test.cc:134-136): hash of
the C string left in the 1024-byte hostname buffer after `getHostName`. -/
def rankHostHash (buf : List Nat) : Nat := getHostHash (cString (getHostName buf 1024))

/-- The `localRank` loop of `main` (test.cc:138-143), iterating `p` over
the ranks in order, breaking at `myRank`, and counting the earlier ranks
whose host hash equals this rank's. -/
def localRankGo (H : Nat → Nat) (myRank : Nat) : List Nat → Nat
  | [] => 0
  | p :: ps =>
    if p = myRank then 0
    else (if H p = H myRank then 1 else 0) + localRankGo H myRank ps

/-- `localRank` as computed by `main` for a process of rank `myRank` among
`nRanks` ranks with host hashes `H`. -/
def localRankOf (H : Nat → Nat) (nRanks myRank : Nat) : Nat :=
  localRankGo H myRank (List.range nRanks)

/-- What the signal handler does: the message printed and the exit
status. -/
structure HandlerResult where
  message : String
  status : Nat
deriving Repr, DecidableEq

/-- `handler` (test.cc:112-117), installed for SIGTERM as the first
statement of `main` (test.cc:125): prints "receive signal N. exit." and
exits with status 0. -/
def handler (signum : Int) : HandlerResult :=
  { message := "receive signal " ++ toString signum ++ ". exit.", status := 0 }

/- ------------------------------------------------------------------ -/
/- Helper lemmas -/

/-- `CheckNCCLError` never changes the stored communicator reference. -/
theorem checkNCCLError_comm (c : NCCLComm) (t : TransportResponse) :
    (c.CheckNCCLError t).comm = c := by
  unfold NCCLComm.CheckNCCLError
  split
  · rfl
  · split
    · split <;> rfl
    · rfl

/-- On an Ok transport response, `CheckNCCLError` does nothing. -/
theorem checkNCCLError_ok (c : NCCLComm) (t : TransportResponse)
    (hq : t.queryStatus = ncclSuccess) (ha : t.asyncError = ncclSuccess) :
    c.CheckNCCLError t = ⟨c, 0, [], none⟩ := by
  unfold NCCLComm.CheckNCCLError
  simp [hq, ha]

/-- On a fault with a succeeding query and abort, `CheckNCCLError` logs,
aborts once, and returns without exiting. -/
theorem checkNCCLError_fault (c : NCCLComm) (t : TransportResponse)
    (hq : t.queryStatus = ncclSuccess) (ha : t.asyncError ≠ ncclSuccess)
    (hab : t.abortStatus = ncclSuccess) :
    c.CheckNCCLError t =
      ⟨c, 1, ["ncclCommGetAsyncError result: " ++ ncclGetErrorString t.asyncError,
              "[DEBUG] ncclComAbort starts!",
              "[DEBUG] ncclComAbort finishes!"], none⟩ := by
  unfold NCCLComm.CheckNCCLError
  simp [hq, ha, hab]

/-- `CheckNCCLError` exits only with status 1, if at all. -/
theorem checkNCCLError_exit_cases (c : NCCLComm) (t : TransportResponse) :
    (c.CheckNCCLError t).exited = none ∨ (c.CheckNCCLError t).exited = some 1 := by
  unfold NCCLComm.CheckNCCLError
  split
  · right; rfl
  · split
    · split
      · right; rfl
      · left; rfl
    · left; rfl

/-- The watchdog run never changes the handle state. -/
theorem runWatchdog_comm (c : NCCLComm) (ts : List TransportResponse) :
    (runWatchdog c ts).1 = c := by
  induction ts generalizing c with
  | nil => rfl
  | cons t ts ih =>
    unfold runWatchdog
    have hc := checkNCCLError_comm c t
    cases hx : (c.CheckNCCLError t).exited with
    | some st => simp [hx, hc]
    | none => simp [hx, hc, ih]

/-- A watchdog run over all-Ok responses does nothing. -/
theorem runWatchdog_ok (c : NCCLComm) (ts : List TransportResponse)
    (h : ∀ t ∈ ts, t.queryStatus = ncclSuccess ∧ t.asyncError = ncclSuccess) :
    runWatchdog c ts = (c, 0, none) := by
  induction ts with
  | nil => rfl
  | cons t ts ih =>
    have ht := h t (List.mem_cons_self t ts)
    have hck := checkNCCLError_ok c t ht.1 ht.2
    unfold runWatchdog
    rw [hck]
    simp [ih fun u hu => h u (List.mem_cons_of_mem t hu)]

/-- A watchdog run over responses that all report a fault with a
succeeding query and abort invokes one abort per response. -/
theorem runWatchdog_allFault (c : NCCLComm) (ts : List TransportResponse)
    (h : ∀ t ∈ ts, t.queryStatus = ncclSuccess ∧ t.asyncError ≠ ncclSuccess ∧
          t.abortStatus = ncclSuccess) :
    (runWatchdog c ts).2.1 = ts.length := by
  induction ts with
  | nil => rfl
  | cons t ts ih =>
    have ht := h t (List.mem_cons_self t ts)
    have hck := checkNCCLError_fault c t ht.1 ht.2.1 ht.2.2
    unfold runWatchdog
    rw [hck]
    simp [ih fun u hu => h u (List.mem_cons_of_mem t hu)]
    omega

/-- One foreground iteration exits with status 1 exactly when the
`ncclAllReduce` result is not `ncclSuccess`. -/
theorem fgIteration_eq (s : Nat) :
    fgIteration s = if s ≠ ncclSuccess then some 1 else none := by
  by_cases hs : s = ncclSuccess <;> simp [fgIteration, NCCLCHECK, hs]

/-- If the hashes of ranks `p`, `p+1`, ..., cover `myRank`, the localRank
loop started at `p` counts the ranks in `[p, myRank)` whose hash equals
`myRank`'s. -/
theorem localRankGo_range' (H : Nat → Nat) (myRank : Nat) :
    ∀ d p, p ≤ myRank → myRank < p + d →
      localRankGo H myRank (List.range' p d)
        = (List.range' p (myRank - p)).countP (fun q => decide (H q = H myRank)) := by
  intro d
  induction d with
  | zero => intro p hp hlt; omega
  | succ d ih =>
    intro p hp hlt
    rw [List.range'_succ]
    by_cases hpm : p = myRank
    · subst hpm
      simp [localRankGo, Nat.sub_self]
    · have hplt : p < myRank := lt_of_le_of_ne hp hpm
      have h1 : localRankGo H myRank (p :: List.range' (p + 1) d) =
          (if H p = H myRank then 1 else 0) +
            localRankGo H myRank (List.range' (p + 1) d) := by
        simp [localRankGo, hpm]
      rw [h1, ih (p + 1) (by omega) (by omega)]
      have h2 : myRank - p = (myRank - (p + 1)) + 1 := by omega
      rw [h2, List.range'_succ, List.countP_cons]
      by_cases hH : H p = H myRank
      · simp [hH]; omega
      · simp [hH]

/-- If no byte among the first `maxlen` scanned positions is a dot,
`getHostName` changes nothing. -/
theorem getHostName_no_dot (buf : List Nat) (maxlen : Nat)
    (h : ∀ i, i < maxlen → buf.getD i 0 ≠ 46) :
    getHostName buf maxlen = buf := by
  induction buf generalizing maxlen with
  | nil => cases maxlen <;> rfl
  | cons c rest ih =>
    cases maxlen with
    | zero => rfl
    | succ m =>
      have hc : c ≠ 46 := by
        have h0 := h 0 (Nat.succ_pos m)
        simpa using h0
      simp only [getHostName, hc, if_false, List.cons.injEq, true_and]
      exact ih m fun i hi => by
        have hs := h (i + 1) (Nat.succ_lt_succ hi)
        simpa using hs

/-- If position `j` holds the first dot among the scanned positions,
`getHostName` writes a 0 terminator exactly there. -/
theorem getHostName_first_dot (buf : List Nat) (maxlen j : Nat)
    (hj : j < maxlen) (hdot : buf.getD j 0 = 46)
    (hmin : ∀ k, k < j → buf.getD k 0 ≠ 46) :
    getHostName buf maxlen = buf.set j 0 := by
  induction buf generalizing maxlen j with
  | nil => simp [List.getD_nil] at hdot
  | cons c rest ih =>
    cases maxlen with
    | zero => omega
    | succ m =>
      cases j with
      | zero =>
        have hc : c = 46 := by simpa using hdot
        simp [getHostName, hc]
      | succ k =>
        have hc : c ≠ 46 := by
          have h0 := hmin 0 (Nat.succ_pos k)
          simpa using h0
        have hd : rest.getD k 0 = 46 := by simpa using hdot
        simp only [getHostName, hc, if_false, List.set_cons_succ, List.cons.injEq,
          true_and]
        exact ih m k (by omega) hd fun k2 hk2 => by
          have hs := hmin (k2 + 1) (Nat.succ_lt_succ hk2)
          simpa using hs

/- ------------------------------------------------------------------ -/
/- Claim theorems -/

/-- C1 counterexample: `CheckNCCLError` records no fault state, so at the
concrete input where two consecutive health checks both observe async error
code 6 (query and abort succeeding), the second call — made after the first
one already aborted — invokes abort again (its abort count is 1, not 0),
and the two-call run invokes abort twice in total, refuting "every later
checkHealth call does not invoke abort again". -/
theorem checkHealth_reaborts_on_second_fault :
    (NCCLComm.CheckNCCLError ⟨0⟩ ⟨0, 6, 0⟩).abortCalls = 1 ∧
    (NCCLComm.CheckNCCLError ⟨0⟩ ⟨0, 6, 0⟩).exited = none ∧
    (NCCLComm.CheckNCCLError (NCCLComm.CheckNCCLError ⟨0⟩ ⟨0, 6, 0⟩).comm ⟨0, 6, 0⟩).abortCalls = 1 ∧
    (runWatchdog ⟨0⟩ [⟨0, 6, 0⟩, ⟨0, 6, 0⟩]).2.1 = 2 :=
  ⟨rfl, rfl, rfl, rfl⟩

/-- C1 amended: every `CheckNCCLError` call that observes a non-Ok async
error code (with the query itself succeeding) invokes abort exactly once
within that call and leaves the handle state unchanged; the handle records
no fault state, so over a run of faulting calls with succeeding aborts the
abort is re-invoked on every call, one abort per call. -/
theorem checkHealth_aborts_every_fault (c : NCCLComm) (t : TransportResponse)
    (hq : t.queryStatus = ncclSuccess) (ha : t.asyncError ≠ ncclSuccess) :
    (c.CheckNCCLError t).abortCalls = 1 ∧ (c.CheckNCCLError t).comm = c ∧
    ∀ ts : List TransportResponse,
      (∀ u ∈ ts, u.queryStatus = ncclSuccess ∧ u.asyncError ≠ ncclSuccess ∧
        u.abortStatus = ncclSuccess) →
      (runWatchdog c ts).2.1 = ts.length := by
  refine ⟨?_, checkNCCLError_comm c t, fun ts h => runWatchdog_allFault c ts h⟩
  unfold NCCLComm.CheckNCCLError
  simp only [hq, ha, ne_eq, not_true_eq_false, not_false_eq_true, if_false, if_true,
    ite_not]
  split <;> rfl

/-- C1 witness at a concrete input. -/
theorem checkHealth_aborts_every_fault_holds :
    (NCCLComm.CheckNCCLError ⟨0⟩ ⟨0, 6, 0⟩).abortCalls = 1 ∧
    (NCCLComm.CheckNCCLError ⟨0⟩ ⟨0, 6, 0⟩).comm = ⟨0⟩ :=
  ⟨(checkHealth_aborts_every_fault ⟨0⟩ ⟨0, 6, 0⟩ rfl (by decide)).1,
   (checkHealth_aborts_every_fault ⟨0⟩ ⟨0, 6, 0⟩ rfl (by decide)).2.1⟩

/-- C2: a health check that observes a non-Ok async error code, with the
query and abort calls themselves succeeding, logs the failure and aborts
once but does not exit the process; the foreground loop iteration exits
with status 1 exactly when its `ncclAllReduce` call reports failure. -/
theorem asyncError_abort_defers_termination (c : NCCLComm) (t : TransportResponse)
    (hq : t.queryStatus = ncclSuccess) (ha : t.asyncError ≠ ncclSuccess)
    (hab : t.abortStatus = ncclSuccess) :
    (c.CheckNCCLError t).exited = none ∧
    (c.CheckNCCLError t).abortCalls = 1 ∧
    (c.CheckNCCLError t).logs.head? =
      some ("ncclCommGetAsyncError result: " ++ ncclGetErrorString t.asyncError) ∧
    ∀ s, fgIteration s = some 1 ↔ s ≠ ncclSuccess := by
  rw [checkNCCLError_fault c t hq ha hab]
  refine ⟨rfl, rfl, rfl, fun s => ?_⟩
  rw [fgIteration_eq]
  by_cases hs : s = ncclSuccess <;> simp [hs]

/-- C2 witness at a concrete input. -/
theorem asyncError_abort_defers_termination_holds :
    (NCCLComm.CheckNCCLError ⟨0⟩ ⟨0, 6, 0⟩).exited = none ∧
    (NCCLComm.CheckNCCLError ⟨0⟩ ⟨0, 6, 0⟩).abortCalls = 1 :=
  ⟨(asyncError_abort_defers_termination ⟨0⟩ ⟨0, 6, 0⟩ rfl (by decide) rfl).1,
   (asyncError_abort_defers_termination ⟨0⟩ ⟨0, 6, 0⟩ rfl (by decide) rfl).2.1⟩

/-- C3: over any sequence of health checks that all observe the Ok code
(and whose query calls succeed), the run changes nothing: the handle state
is unchanged, no abort is invoked, the derived fault state stays Healthy,
and each individual Ok check is a complete no-op. -/
theorem ok_sequence_keeps_healthy (c : NCCLComm) (ts : List TransportResponse)
    (h : ∀ t ∈ ts, t.queryStatus = ncclSuccess ∧ t.asyncError = ncclSuccess) :
    runWatchdog c ts = (c, 0, none) ∧
    faultStateOf (runWatchdog c ts).2.1 = .Healthy ∧
    ∀ t : TransportResponse, t.queryStatus = ncclSuccess → t.asyncError = ncclSuccess →
      c.CheckNCCLError t = ⟨c, 0, [], none⟩ := by
  have hr := runWatchdog_ok c ts h
  exact ⟨hr, by rw [hr]; rfl, fun t hq ha => checkNCCLError_ok c t hq ha⟩

/-- C3 witness at a concrete input. -/
theorem ok_sequence_keeps_healthy_holds :
    runWatchdog ⟨7⟩ [⟨0, 0, 0⟩, ⟨0, 0, 0⟩] = (⟨7⟩, 0, none) ∧
    faultStateOf (runWatchdog ⟨7⟩ [⟨0, 0, 0⟩, ⟨0, 0, 0⟩]).2.1 = .Healthy :=
  ⟨(ok_sequence_keeps_healthy ⟨7⟩ [⟨0, 0, 0⟩, ⟨0, 0, 0⟩] (by decide)).1,
   (ok_sequence_keeps_healthy ⟨7⟩ [⟨0, 0, 0⟩, ⟨0, 0, 0⟩] (by decide)).2.1⟩

/-- C4: for every sequence of health checks (aborting ones included),
the stored communicator reference never changes and `GetNCCLComm` always
returns the resource supplied at construction. -/
theorem getNCCLComm_constant (r : Nat) (ts : List TransportResponse) :
    (runWatchdog ⟨r⟩ ts).1 = ⟨r⟩ ∧
    NCCLComm.GetNCCLComm (runWatchdog ⟨r⟩ ts).1 = r ∧
    ∀ t, (NCCLComm.CheckNCCLError ⟨r⟩ t).comm.GetNCCLComm = r := by
  refine ⟨runWatchdog_comm ⟨r⟩ ts, ?_, ?_⟩
  · rw [runWatchdog_comm]; rfl
  · intro t; rw [checkNCCLError_comm]; rfl

/-- C6: each check macro, on a failing result code, produces a diagnostic
carrying the source file, the line number and the underlying error code or
error string, and exits with status 1. -/
theorem check_macros_fail_fast :
    (∀ (file : String) (line : Nat) (e : Int), e ≠ MPI_SUCCESS →
      MPICHECK file line e = .failed ⟨file, line, toString e⟩ 1) ∧
    (∀ (file : String) (line : Nat) (e : Nat), e ≠ cudaSuccess →
      CUDACHECK file line e = .failed ⟨file, line, cudaGetErrorString e⟩ 1) ∧
    (∀ (file : String) (line : Nat) (r : Nat), r ≠ ncclSuccess →
      NCCLCHECK file line r = .failed ⟨file, line, ncclGetErrorString r⟩ 1) := by
  refine ⟨fun file line e he => ?_, fun file line e he => ?_, fun file line r hr => ?_⟩
  · simp [MPICHECK, he]
  · simp [CUDACHECK, he]
  · simp [NCCLCHECK, hr]

/-- C6 witness at concrete inputs. -/
theorem check_macros_fail_fast_holds :
    MPICHECK "test.cc" 128 3 = .failed ⟨"test.cc", 128, toString (3 : Int)⟩ 1 ∧
    CUDACHECK "test.cc" 159 2 = .failed ⟨"test.cc", 159, cudaGetErrorString 2⟩ 1 ∧
    NCCLCHECK "test.cc" 165 5 = .failed ⟨"test.cc", 165, ncclGetErrorString 5⟩ 1 :=
  ⟨check_macros_fail_fast.1 "test.cc" 128 3 (by decide),
   check_macros_fail_fast.2.1 "test.cc" 159 2 (by decide),
   check_macros_fail_fast.2.2 "test.cc" 165 5 (by decide)⟩

/-- C7: the SIGTERM handler always exits with status 0 — never 1 — and its
message names the received signal number. -/
theorem sigterm_handler_status_zero (signum : Int) :
    (handler signum).status = 0 ∧ (handler signum).status ≠ 1 ∧
    ∃ pre post, (handler signum).message = pre ++ toString signum ++ post :=
  ⟨rfl, by simp [handler], "receive signal ", ". exit.", rfl⟩

/-- C8: neither infinite loop ever reaches the code after it — after any
number of iterations, under any transport behaviour, each loop is either
still running or has exited with status 1 via a check macro; the
`reachedPostlude` outcome (buffer frees, thread join, success message,
return 0) is never produced. -/
theorem loops_never_reach_postlude :
    (∀ (statuses : Nat → Nat) (n : Nat),
      mainCollectiveLoop statuses n = .running ∨
      mainCollectiveLoop statuses n = .exited 1) ∧
    (∀ (c : NCCLComm) (ts : Nat → TransportResponse) (n : Nat),
      checkNCCLErrorLoop c ts n = .running ∨
      checkNCCLErrorLoop c ts n = .exited 1) := by
  constructor
  · intro statuses n
    induction n with
    | zero => exact Or.inl rfl
    | succ n ih =>
      rcases ih with h | h
      · by_cases hs : statuses n = ncclSuccess
        · left; simp [mainCollectiveLoop, h, fgIteration_eq, hs]
        · right; simp [mainCollectiveLoop, h, fgIteration_eq, hs]
      · right; simp [mainCollectiveLoop, h]
  · intro c ts n
    induction n with
    | zero => exact Or.inl rfl
    | succ n ih =>
      rcases ih with h | h
      · rcases checkNCCLError_exit_cases c (ts n) with hx | hx
        · left; simp [checkNCCLErrorLoop, h, hx]
        · right; simp [checkNCCLErrorLoop, h, hx]
      · right; simp [checkNCCLErrorLoop, h]

/-- C9: a health check can itself end the process with status 1 — when the
`ncclCommGetAsyncError` call fails, or when it succeeds reporting a fault
and the `ncclCommAbort` call fails, the NCCLCHECK inside `CheckNCCLError`
exits with status 1. -/
theorem checkHealth_can_terminate_process (c : NCCLComm) (t : TransportResponse) :
    (t.queryStatus ≠ ncclSuccess → (c.CheckNCCLError t).exited = some 1) ∧
    (t.queryStatus = ncclSuccess → t.asyncError ≠ ncclSuccess →
      t.abortStatus ≠ ncclSuccess → (c.CheckNCCLError t).exited = some 1) := by
  constructor
  · intro hq
    unfold NCCLComm.CheckNCCLError
    simp [hq]
  · intro hq ha hab
    unfold NCCLComm.CheckNCCLError
    simp [hq, ha, hab]

/-- C9 witness at concrete inputs. -/
theorem checkHealth_can_terminate_process_holds :
    (NCCLComm.CheckNCCLError ⟨0⟩ ⟨3, 0, 0⟩).exited = some 1 ∧
    (NCCLComm.CheckNCCLError ⟨0⟩ ⟨0, 6, 2⟩).exited = some 1 :=
  ⟨(checkHealth_can_terminate_process ⟨0⟩ ⟨3, 0, 0⟩).1 (by decide),
   (checkHealth_can_terminate_process ⟨0⟩ ⟨0, 6, 2⟩).2 rfl (by decide) (by decide)⟩

/-- C5: for each process of rank `myRank` among `nRanks` ranks with per-rank
hostname buffers `bufs`, the `localRank` computed by `main` — and passed to
`cudaSetDevice` — equals the number of ranks `p < myRank` whose host hash
(the DJB2a hash of the hostname buffer after `getHostName` truncated it at
its first dot) equals this rank's host hash. -/
theorem localRank_counts_same_host_peers (bufs : Nat → List Nat) (nRanks myRank : Nat)
    (h : myRank < nRanks) :
    localRankOf (fun p => rankHostHash (bufs p)) nRanks myRank
      = (List.range myRank).countP
          (fun p => decide (rankHostHash (bufs p) = rankHostHash (bufs myRank))) := by
  unfold localRankOf
  rw [List.range_eq_range' nRanks,
    localRankGo_range' (fun p => rankHostHash (bufs p)) myRank nRanks 0 (by omega)
      (by omega)]
  simp [List.range_eq_range']

/-- C5 witness: three ranks, ranks 0 and 2 on one host and rank 1 on
another. -/
theorem localRank_counts_same_host_peers_holds :
    (2 : Nat) < 3 ∧
    localRankOf (fun p => rankHostHash (if p = 1 then [99, 0] else [97, 98, 0])) 3 2
      = (List.range 2).countP
          (fun p => decide (rankHostHash (if p = 1 then [99, 0] else [97, 98, 0])
              = rankHostHash (if (2 : Nat) = 1 then [99, 0] else [97, 98, 0]))) :=
  ⟨by decide,
   localRank_counts_same_host_peers
     (fun p => if p = 1 then [99, 0] else [97, 98, 0]) 3 2 (by decide)⟩

/-- C10: `getHostName` scans at most `maxlen` buffer positions; if none of
them holds a dot (byte 46) the buffer is returned unchanged — no
terminator is added — and if position `j` holds the first dot among them,
exactly that position is overwritten with a 0 terminator and every other
position is left unchanged. -/
theorem getHostName_truncates_first_dot (buf : List Nat) (maxlen : Nat) :
    ((∀ i, i < maxlen → buf.getD i 0 ≠ 46) → getHostName buf maxlen = buf) ∧
    (∀ j, j < maxlen → buf.getD j 0 = 46 → (∀ k, k < j → buf.getD k 0 ≠ 46) →
      getHostName buf maxlen = buf.set j 0) :=
  ⟨fun h => getHostName_no_dot buf maxlen h,
   fun j hj hdot hmin => getHostName_first_dot buf maxlen j hj hdot hmin⟩

/-- C10 witness: a buffer with a dot at position 1 gets its terminator
exactly there; a dot-free buffer is unchanged. -/
theorem getHostName_truncates_first_dot_holds :
    getHostName [104, 46, 99] 3 = [104, 46, 99].set 1 0 ∧
    getHostName [104, 99] 2 = [104, 99] :=
  ⟨(getHostName_truncates_first_dot [104, 46, 99] 3).2 1 (by decide) (by decide)
     (by decide),
   (getHostName_truncates_first_dot [104, 99] 2).1 (by decide)⟩

end NCCLTest
